import Mathlib

/-
  Verification development for the Travel-Itinerary-Planner repository
  (single source file `app.py`).

  The claims under study concern the PDF layout engine (`draw_block`,
  `render_pdf`), the markdown heading stripping, the bullet
  normalization, and the weather helpers (`weather_md`, `WCODE`).

  Embedding conventions:
  * Python strings are embedded as `Str := List Char`; the Python string
    operations used by the source (`split("\n")`, `splitlines()`,
    `strip()`, `lstrip(chars)`, `startswith`, `replace`, `join`,
    `title()`) are defined below with CPython semantics (Unicode
    whitespace / line-break classes as in CPython; `title()` is modelled
    for ASCII letters, the only letters the claims exercise).
  * Page coordinates are embedded as exact integers measured in units of
    `1/127` point: `cm = 72/2.54 = 3600/127` points, so with this unit
    every quantity appearing in `render_pdf` (margins, `line_h = 14`,
    the decrements 18, 12, 8, the A4 geometry `210*mm × 297*mm`) is an
    exact integer, and all cursor arithmetic is exact rational
    arithmetic.  The source computes with binary floats which
    approximate these exact values to within 1e-12 points, while every
    comparison appearing in the claims and counterexamples below has
    slack of at least 0.4 points, so the float/exact discrepancy can
    never flip a branch.
  * reportlab's `simpleSplit` (the Text Wrapper) is library code absent
    from the repository; it is modelled from the spec, see its doc
    comment.
-/

/-- Python strings, embedded as lists of characters. -/
abbrev Str := List Char

/-- CPython's whitespace class, as used by `str.strip()` / `str.split()`. -/
def pyWsChar (c : Char) : Bool :=
  c = ' ' || c = '\t' || c = '\n' || c = '\r' || c = '\x0b' || c = '\x0c' ||
  c = '\x1c' || c = '\x1d' || c = '\x1e' || c = '\x1f' || c = '\x85' ||
  c = ' ' || c = ' ' || c = ' ' || c = ' ' || c = ' ' ||
  c = ' ' || c = ' ' || c = ' ' || c = ' ' || c = ' ' ||
  c = ' ' || c = ' ' || c = ' ' || c = ' ' || c = ' ' ||
  c = ' ' || c = ' ' || c = '　'

/-- CPython's line-boundary class, as used by `str.splitlines()`. -/
def pyLineBreakChar (c : Char) : Bool :=
  c = '\n' || c = '\r' || c = '\x0b' || c = '\x0c' || c = '\x1c' || c = '\x1d' ||
  c = '\x1e' || c = '\x85' || c = ' ' || c = ' '

/-- Python `s.split("\n")` (single-character separator, empties kept). -/
def pySplitNl : Str → List Str
  | [] => [[]]
  | c :: t =>
    if c = '\n' then [] :: pySplitNl t
    else
      match pySplitNl t with
      | [] => [[c]]
      | l :: ls => (c :: l) :: ls

/-- Python `s.splitlines()`: split at line boundaries, `\r\n` counting as
one boundary, with no trailing empty line for a trailing boundary. -/
def pySplitlines : Str → List Str
  | [] => []
  | '\r' :: '\n' :: t => [] :: pySplitlines t
  | c :: t =>
    if pyLineBreakChar c then [] :: pySplitlines t
    else
      match pySplitlines t with
      | [] => [[c]]
      | l :: ls => (c :: l) :: ls

/-- Python `sep.join(xs)` for a list of lines. -/
def pyJoin (sep : Str) (xs : List Str) : Str :=
  List.intercalate sep xs

/-- Python `s.startswith(p)`. -/
def pyStartsWith (p s : Str) : Bool :=
  List.isPrefixOf p s

/-- Python `s.lstrip(chars)`: drop leading characters drawn from `chars`. -/
def pyLstripSet (chars : Str) (s : Str) : Str :=
  s.dropWhile (fun c => c ∈ chars)

/-- Python `s.lstrip()` (no argument): drop leading whitespace. -/
def pyLstripWs (s : Str) : Str :=
  s.dropWhile pyWsChar

/-- Python `s.rstrip()` (no argument): drop trailing whitespace. -/
def pyRstripWs (s : Str) : Str :=
  (s.reverse.dropWhile pyWsChar).reverse

/-- Python `s.strip()` (no argument): drop whitespace at both ends. -/
def pyStrip (s : Str) : Str :=
  pyRstripWs (pyLstripWs s)

/-- Helper for `pySplitWs`: scan with the (reversed) current token. -/
def pySplitWsAux : Str → Str → List Str
  | cur, [] => if cur = [] then [] else [cur.reverse]
  | cur, c :: t =>
    if pyWsChar c then
      if cur = [] then pySplitWsAux [] t else cur.reverse :: pySplitWsAux [] t
    else pySplitWsAux (c :: cur) t

/-- Python `s.split()` (no argument): split on runs of whitespace,
dropping empty tokens. -/
def pySplitWs (s : Str) : List Str :=
  pySplitWsAux [] s

/-- Python truthiness-based `a or b` on strings: `b` if `a` is empty. -/
def pyOr (a b : Str) : Str :=
  if a = [] then b else a

/-- Python `str.title()` for ASCII letters: a letter is uppercased when
not preceded by a letter, lowercased otherwise. -/
def pyTitleCase (s : Str) : Str :=
  go false s
where
  go : Bool → Str → Str
    | _, [] => []
    | prevAlpha, c :: t =>
      if c.isAlpha then
        (if prevAlpha then c.toLower else c.toUpper) :: go true t
      else
        c :: go false t

/-- `weather_text.replace("### ", "")` from `render_pdf` line 186: delete
every occurrence of the four-character pattern, scanning left to right
without rescanning emitted text (CPython `str.replace` semantics). -/
def stripWeather : Str → Str
  | '#' :: '#' :: '#' :: ' ' :: t => stripWeather t
  | c :: t => c :: stripWeather t
  | [] => []

/-- The per-line heading cascade of `render_pdf` lines 190-193: four
sequential (non-`elif`) checks. -/
def normLine (ln : Str) : Str :=
  let l1 := if pyStartsWith ['#', '#', '#', ' '] ln then ln.drop 4 else ln
  let l2 := if pyStartsWith ['#', '#', ' '] l1 then l1.drop 3 else l1
  let l3 := if pyStartsWith ['#', ' '] l2 then l2.drop 2 else l2
  if pyStartsWith ['#', ' '] l3 then l3.drop 1 else l3

/-- The itinerary normalization of `render_pdf` lines 188-194:
`splitlines`, per-line heading cascade, `"\n".join`. -/
def normalizeMd (s : Str) : Str :=
  pyJoin ['\n'] ((pySplitlines s).map normLine)

/-- The bullet-marking test of `write` line 163:
`ln.strip().startswith(("*", "-", "•"))`. -/
def bulletMarked (ln : Str) : Bool :=
  pyStartsWith ['*'] (pyStrip ln) || pyStartsWith ['-'] (pyStrip ln) ||
  pyStartsWith ['•'] (pyStrip ln)

/-- The bullet rewrite of `write` lines 163-164: a marked line becomes
`"• " + ln.lstrip("*-• ").strip()`; an unmarked line is unchanged. -/
def normBulletLine (ln : Str) : Str :=
  if bulletMarked ln then
    '•' :: ' ' :: pyStrip (pyLstripSet ['*', '-', '•', ' '] ln)
  else ln

-- ============  Page geometry (integer units of 1/127 point)  ==========

/-- The number of coordinate units per printer's point.  `127` is the
denominator of `cm = 72/2.54 = 3600/127` points, so in these units every
quantity of `render_pdf` is an exact integer. -/
def uPt : ℤ := 127

/-- reportlab `inch = 72.0` points. -/
def inchU : ℤ := 72 * uPt

/-- reportlab `cm = inch / 2.54` (the division is exact: `3600` points
per `1/127`-unit scale). -/
def cmU : ℤ := inchU * 100 / 254

/-- reportlab `mm = cm * 0.1` (exact: `360`). -/
def mmU : ℤ := cmU / 10

/-- reportlab A4 page width, `210*mm`. -/
def pageW : ℤ := 210 * mmU

/-- reportlab A4 page height, `297*mm`. -/
def pageH : ℤ := 297 * mmU

/-- `left = 2*cm` from `render_pdf`. -/
def leftM : ℤ := 2 * cmU

/-- `right = width - 2*cm` from `render_pdf`. -/
def rightM : ℤ := pageW - 2 * cmU

/-- `top = height - 2*cm` from `render_pdf`. -/
def topM : ℤ := pageH - 2 * cmU

/-- `line_h = 14` (points) from `render_pdf`. -/
def lineH : ℤ := 14 * uPt

/-- `maxw = right - left` from `draw_block`. -/
def maxW : ℤ := rightM - leftM

-- =====================  Text Wrapper  =================================

/-- Modelled from the spec: reportlab's `simpleSplit` is library code not
present in the repository, so the Text Wrapper is taken from §4.1 of the
spec.  Greedy fill of whitespace-delimited tokens: a candidate line is
extended with the next token while its rendered width under the font
metric `SW` stays within `mw`; a single token is always emitted (possibly
overflowing) rather than failing.  `greedyFill cur ts` assumes `cur`
already holds at least one token. -/
def greedyFill (SW : Str → ℤ) (mw : ℤ) : Str → List Str → List Str
  | cur, [] => [cur]
  | cur, t :: ts =>
    if SW (cur ++ ' ' :: t) ≤ mw then greedyFill SW mw (cur ++ ' ' :: t) ts
    else cur :: greedyFill SW mw t ts

/-- Modelled from the spec: wrapping of one explicit line (§4.1).  An
empty line (no tokens) produces exactly one empty output line; otherwise
tokens are filled greedily. -/
def wrapLine (SW : Str → ℤ) (mw : ℤ) (ln : Str) : List Str :=
  match pySplitWs ln with
  | [] => [[]]
  | t :: ts => greedyFill SW mw t ts

/-- Modelled from the spec: `simpleSplit(text, font, size, maxWidth)`
(§4.1).  Explicit line breaks are never merged across; each explicit line
is wrapped independently.  The font metric is abstracted as a
string-width function `SW`. -/
def simpleSplit (SW : Str → ℤ) (mw : ℤ) (txt : Str) : List Str :=
  (pySplitNl txt).flatMap (wrapLine SW mw)

-- =====================  Layout engine  ================================

/-- One `c.drawString` event of a render: the page it lands on, its
vertical coordinate, its text, and whether it was emitted by the
page-break-checked body loop of `write` (`checked = true`) or by an
unchecked `drawString` (block titles, document header). -/
structure Ev where
  page : ℕ
  y : ℤ
  txt : Str
  checked : Bool
deriving DecidableEq

/-- Result of a layout step: final cursor, final page index, events. -/
structure WRes where
  y : ℤ
  pg : ℕ
  evs : List Ev
deriving DecidableEq

/-- The inner loop of `write` (lines 165-169): for each wrapped segment,
decrement the cursor by `line_h`; if it fell below `2*cm`, start a new
page and reset the cursor to `top`; then draw the segment. -/
def writeSegs : List Str → ℤ → ℕ → WRes
  | [], y0, pg => ⟨y0, pg, []⟩
  | s :: rest, y0, pg =>
    if y0 - lineH < 2 * cmU then
      let r := writeSegs rest topM (pg + 1)
      ⟨r.y, r.pg, ⟨pg + 1, topM, s, true⟩ :: r.evs⟩
    else
      let r := writeSegs rest (y0 - lineH) pg
      ⟨r.y, r.pg, ⟨pg, y0 - lineH, s, true⟩ :: r.evs⟩

/-- The segment list fed to the inner loop by `write` (lines 162-165):
split the body on explicit `"\n"`, apply the bullet rewrite in bullet
mode, and wrap each line. -/
def segsOf (SW : Str → ℤ) (bullet : Bool) (txt : Str) : List Str :=
  (pySplitNl txt).flatMap
    (fun ln => simpleSplit SW maxW (if bullet then normBulletLine ln else ln))

/-- `write(txt, y0)` from `draw_block` (lines 160-170). -/
def write (SW : Str → ℤ) (bullet : Bool) (txt : Str) (y0 : ℤ) (pg : ℕ) : WRes :=
  writeSegs (segsOf SW bullet txt) y0 pg

/-- `draw_block(title, body, y, ..., bullet)` (lines 156-172): draw the
title at the incoming cursor (no page-break check), advance by 12 points,
write the body, and return the cursor decremented by a further 8 points. -/
def draw_block (SW : Str → ℤ) (bullet : Bool) (title body : Str) (y : ℤ)
    (pg : ℕ) : WRes :=
  let r := write SW bullet body (y - 12 * uPt) pg
  ⟨r.y - 8 * uPt, r.pg, ⟨pg, y, title, false⟩ :: r.evs⟩

/-- The em dash used as the Interests placeholder (`interests_text or "—"`). -/
def emDash : Str := ['—']

/-- The three `draw_block` invocations of `render_pdf` (lines 185-195):
titles, preprocessed bodies, and bullet flags in source order. -/
def blocksOf (interests itin weather : Str) : List (Str × Str × Bool) :=
  [("Interests".toList, pyOr interests emDash, false),
   ("Weather".toList, stripWeather weather, false),
   ("Itinerary".toList, normalizeMd itin, true)]

/-- The full drawing trace of `render_pdf` (lines 174-195): the document
title at `top`, the generation line 18 points below it, then the three
blocks threaded through `draw_block` starting 12 points below the
generation line.  `ts` is the formatted `datetime.now()` string
(external real time). -/
def renderTrace (SW : Str → ℤ) (city : Str) (days : ℕ)
    (interests itin weather ts : Str) : List Ev :=
  let titleEv : Ev :=
    ⟨0, topM, pyTitleCase city ++ (" — ".toList ++ ((Nat.repr days).toList ++
      "-Day Itinerary".toList)), false⟩
  let genEv : Ev := ⟨0, topM - 18 * uPt, "Generated: ".toList ++ ts, false⟩
  let r1 := draw_block SW false "Interests".toList (pyOr interests emDash)
    (topM - 30 * uPt) 0
  let r2 := draw_block SW false "Weather".toList (stripWeather weather) r1.y r1.pg
  let r3 := draw_block SW true "Itinerary".toList (normalizeMd itin) r2.y r2.pg
  titleEv :: genEv :: (r1.evs ++ (r2.evs ++ r3.evs))

-- =====================  Weather helpers  ==============================

/-- The `WCODE` table (lines 82-93), keyed by the numeric weather code. -/
def WCODE : List (Int × Str) :=
  [(0, "Clear sky".toList), (1, "Mainly clear".toList),
   (2, "Partly cloudy".toList), (3, "Overcast".toList),
   (45, "Fog".toList), (48, "Depositing rime fog".toList),
   (51, "Light drizzle".toList), (53, "Moderate drizzle".toList),
   (55, "Dense drizzle".toList),
   (56, "Freezing drizzle (light)".toList),
   (57, "Freezing drizzle (dense)".toList),
   (61, "Light rain".toList), (63, "Moderate rain".toList),
   (65, "Heavy rain".toList),
   (66, "Freezing rain (light)".toList),
   (67, "Freezing rain (heavy)".toList),
   (71, "Light snowfall".toList), (73, "Moderate snowfall".toList),
   (75, "Heavy snowfall".toList), (77, "Snow grains".toList),
   (80, "Rain showers (slight)".toList),
   (81, "Rain showers (moderate)".toList),
   (82, "Rain showers (violent)".toList),
   (85, "Snow showers (slight)".toList),
   (86, "Snow showers (heavy)".toList),
   (95, "Thunderstorm (slight/moderate)".toList),
   (96, "Thunderstorm w/ hail (slight)".toList),
   (99, "Thunderstorm w/ hail (heavy)".toList)]

/-- `WCODE.get(code, "N/A")` from `weather_md` line 136. -/
def wcodeGet (c : Int) : Str :=
  (WCODE.lookup c).getD "N/A".toList

/-- The payload assembled by `get_weather`; values that are only
interpolated into f-strings are carried as their formatted text. -/
structure Weather where
  label : Str
  dates : List Str
  tmax : List Str
  tmin : List Str
  pop : List Str
  wcode : List Int
deriving DecidableEq

/-- The body of `weather_md`'s `try` block (lines 134-141): the header
line and one bullet line per date; a Python `IndexError` on the parallel
lists surfaces as an `Except.error` with CPython's message. -/
def formatWeather (w : Weather) : Except Str Str := do
  let lines ← (List.range w.dates.length).foldlM (fun acc i => do
    let dt := w.dates.getD i []
    let desc ← match w.wcode.get? i with
      | some cd => pure (wcodeGet cd)
      | none => Except.error "list index out of range".toList
    let tmin ← match w.tmin.get? i with
      | some v => pure v
      | none => Except.error "list index out of range".toList
    let tmax ← match w.tmax.get? i with
      | some v => pure v
      | none => Except.error "list index out of range".toList
    let pop ← match w.pop.get? i with
      | some v => pure v
      | none => Except.error "list index out of range".toList
    pure (acc ++ ["- **".toList ++ dt ++ "** — ".toList ++ desc ++
      "; **".toList ++ tmin ++ "–".toList ++ tmax ++ "°C**, rain chance: **".toList ++
      pop ++ "%**".toList]))
    ["### 🌤 Weather — ".toList ++ w.label]
  pure (pyJoin ['\n'] lines)

/-- The placeholder marker of `weather_md`'s `except` branch (line 143). -/
def failMarker : Str := "⚠️ Weather fetch failed: ".toList

/-- `weather_md` (lines 131-143): the fetch outcome (network, geocoding,
JSON access — all external I/O) enters as an `Except` whose error carries
`str(e)`; any exception from fetching or formatting is caught and turned
into the placeholder string. -/
def weather_md (fetch : Except Str Weather) : Str :=
  match fetch with
  | Except.error e => failMarker ++ e
  | Except.ok w =>
    match formatWeather w with
    | Except.error e => failMarker ++ e
    | Except.ok s => s

-- ==============  Auxiliary notions used by the claims  ================

/-- A concrete font metric used for witnesses and counterexamples: six
points per character.  Every wrapped line in the concrete traces below
consists of a single whitespace-free token, and the wrapper emits a lone
token unconditionally, so none of those traces depends on the metric. -/
def SW0 : Str → ℤ := fun s => 6 * uPt * s.length

/-- An interests text of 49 one-character lines: enough body lines to
leave the cursor just above the bottom margin of the first page. -/
def i49 : Str := pyJoin ['\n'] (List.replicate 49 ['a'])

/-- The string begins with a markdown heading marker (one of the three
levels, followed by a space). -/
def headMarked (s : Str) : Bool :=
  pyStartsWith ['#', '#', '#', ' '] s || pyStartsWith ['#', '#', ' '] s ||
  pyStartsWith ['#', ' '] s

/-- The four-character pattern `"### "` occurs somewhere in the string. -/
def hasHashPat : Str → Bool
  | [] => false
  | c :: t => pyStartsWith ['#', '#', '#', ' '] (c :: t) || hasHashPat t

/-- The Weather preprocessing as claim C2 words it: strip one leading
heading marker, longest level first, from the start of the text only. -/
def claimedWeatherStrip (s : Str) : Str :=
  if pyStartsWith ['#', '#', '#', ' '] s then s.drop 4
  else if pyStartsWith ['#', '#', ' '] s then s.drop 3
  else if pyStartsWith ['#', ' '] s then s.drop 2
  else s

/-- The bullet rewrite as claim C7 words it: exactly one normalized
bullet glyph followed by the line with its leading bullet characters and
whitespace removed. -/
def claimedBulletRewrite (ln : Str) : Str :=
  '•' :: ' ' :: ln.dropWhile (fun c => c = '*' || c = '-' || c = '•' || pyWsChar c)

/-- Relation between the cursor state `(pg, y0)` before a draw of the
checked loop and the event it produces: either the event stays on the
same page no higher than the cursor, or it sits at `top` on the next
page after a single page break. -/
def stepOk (pg : ℕ) (y0 : ℤ) (e : Ev) : Prop :=
  (e.page = pg ∧ e.y ≤ y0) ∨ (e.page = pg + 1 ∧ e.y = topM)

/-- Relation between two consecutively drawn events: within a page the
vertical position never increases; a page change is a single page break
that resets the position to `top`. -/
def evStep (a b : Ev) : Prop :=
  (b.page = a.page ∧ b.y ≤ a.y) ∨ (b.page = a.page + 1 ∧ b.y = topM)

-- ======================================================================
--  Theorems
-- ======================================================================

-- ------------------  small shared string lemmas  ----------------------

theorem pyStartsWith_self_append (p s : Str) : pyStartsWith p (p ++ s) = true := by
  induction p with
  | nil => simp [pyStartsWith, List.isPrefixOf]
  | cons c t ih => simp only [pyStartsWith, List.isPrefixOf, List.cons_append,
      beq_self_eq_true, Bool.true_and] at ih ⊢; exact ih

theorem head_dropWhile_false {α : Type} (p : α → Bool) :
    ∀ (l : List α) (c : α), (l.dropWhile p).head? = some c → p c = false := by
  intro l
  induction l with
  | nil => intro c h; simp [List.dropWhile] at h
  | cons a t ih =>
    intro c h
    rw [List.dropWhile_cons] at h
    by_cases ha : p a = true
    · exact ih c (by simp only [ha, if_true] at h; exact h)
    · simp only [ha, if_false] at h
      simp only [List.head?] at h
      cases h
      exact Bool.eq_false_iff.mpr ha

theorem mem_dropWhile {α : Type} (p : α → Bool) :
    ∀ (l : List α) (x : α), x ∈ l.dropWhile p → x ∈ l := by
  intro l
  induction l with
  | nil => intro x h; simp [List.dropWhile] at h
  | cons a t ih =>
    intro x h
    rw [List.dropWhile_cons] at h
    by_cases ha : p a = true
    · simp only [ha, if_true] at h
      exact List.mem_cons_of_mem a (ih x h)
    · simp only [ha, if_false] at h
      exact h

theorem dropWhile_append_last {α : Type} (p : α → Bool) (c : α) (hc : p c = false) :
    ∀ xs : List α, (xs ++ [c]).dropWhile p = xs.dropWhile p ++ [c] := by
  intro xs
  induction xs with
  | nil => simp [List.dropWhile, hc]
  | cons a t ih =>
    by_cases ha : p a = true
    · simpa [List.dropWhile_cons, ha] using ih
    · simp [List.dropWhile_cons, ha]

theorem pyRstripWs_cons (c : Char) (t : Str) (hc : pyWsChar c = false) :
    pyRstripWs (c :: t) = c :: pyRstripWs t := by
  unfold pyRstripWs
  rw [show (c :: t).reverse = t.reverse ++ [c] by simp,
    dropWhile_append_last pyWsChar c hc]
  simp

-- ----------------------------  C2  ------------------------------------

theorem stripWeather_id_of_absent :
    ∀ s : Str, hasHashPat s = false → stripWeather s = s := by
  intro s
  induction s using stripWeather.induct with
  | case1 t ih =>
    intro h
    exfalso
    simp [hasHashPat, pyStartsWith, List.isPrefixOf] at h
  | case2 c t hne ih =>
    intro h
    rw [hasHashPat] at h
    simp only [Bool.or_eq_false_iff] at h
    have := ih h.2
    rw [stripWeather]
    · rw [this]
    · exact hne
  | case3 => intro _; rfl

/-- C2 counterexample: the assembler does not strip a leading `## `
marker from the weather text (the claimed longest-prefix strip would),
and it does alter text whose `### ` occurrence is not at the start of a
line (the claim says such text is left unchanged). -/
theorem weather_strip_ce :
    stripWeather "## Weather".toList ≠ claimedWeatherStrip "## Weather".toList ∧
    stripWeather "a ### b".toList ≠ "a ### b".toList := by
  constructor
  · decide
  · decide

/-- C2 (amended): before the Weather block is rendered the assembler
deletes every occurrence of the four-character substring `"### "`
anywhere in the weather text (left-to-right, single pass); text without
such an occurrence — in particular `#`- or `##`-marked text — is left
unchanged, and a leading `"### "` marker is removed. -/
theorem weather_strip_amended :
    (∀ s : Str, hasHashPat s = false → stripWeather s = s) ∧
    (∀ s : Str, stripWeather (['#', '#', '#', ' '] ++ s) = stripWeather s) := by
  refine ⟨stripWeather_id_of_absent, ?_⟩
  intro s
  rfl

/-- C2 witness: the amended statement applied at `"## Weather"` (whose
text has no `"### "` occurrence) and at a weather header with a leading
marker. -/
theorem weather_strip_amended_w :
    stripWeather "## Weather".toList = "## Weather".toList ∧
    stripWeather (['#', '#', '#', ' '] ++ "Weather".toList) =
      stripWeather "Weather".toList :=
  ⟨weather_strip_amended.1 _ (by decide), weather_strip_amended.2 _⟩

-- ----------------------------  C3  ------------------------------------

/-- C3 counterexample: the line-by-line heading strip is not idempotent;
on `"## ### A"` the first application yields `"### A"`, and a second
application strips again, yielding `"A"`. -/
theorem heading_strip_idem_ce :
    normalizeMd (normalizeMd "## ### A".toList) ≠ normalizeMd "## ### A".toList ∧
    normalizeMd "## ### A".toList = "### A".toList ∧
    normalizeMd "### A".toList = "A".toList := by
  refine ⟨by decide, by decide, by decide⟩

/-- C3 (amended): the per-line heading strip is a no-op — hence a second
application is a no-op — exactly on lines whose (already stripped) text
does not itself begin with a heading marker; stripping a line such as
`"## ### A"` exposes a new marker and a second application strips it
again. -/
theorem heading_strip_idem_amended :
    ∀ ln : Str, headMarked (normLine ln) = false →
      normLine (normLine ln) = normLine ln := by
  intro ln h
  simp only [headMarked, Bool.or_eq_false_iff] at h
  obtain ⟨⟨h3, h2⟩, h1⟩ := h
  generalize hx : normLine ln = x at h3 h2 h1 ⊢
  simp [normLine, h3, h2, h1]

/-- C3 witness: the amended statement applied to `"## A"`, whose
stripped form `"A"` carries no heading marker. -/
theorem heading_strip_idem_amended_w :
    headMarked (normLine "## A".toList) = false ∧
    normLine (normLine "## A".toList) = normLine "## A".toList :=
  ⟨by decide, heading_strip_idem_amended _ (by decide)⟩

-- ----------------------------  C5  ------------------------------------

theorem write_empty (SW : Str → ℤ) (b : Bool) (y0 : ℤ) (pg : ℕ)
    (h : 2 * cmU ≤ y0 - lineH) :
    write SW b [] y0 pg = ⟨y0 - lineH, pg, [⟨pg, y0 - lineH, [], true⟩]⟩ := by
  have hnot : ¬(y0 - lineH < 2 * cmU) := not_lt.mpr h
  cases b <;>
    simp [write, segsOf, simpleSplit, pySplitNl, wrapLine, pySplitWs,
      pySplitWsAux, normBulletLine, bulletMarked, pyStrip, pyLstripWs,
      pyRstripWs, pyStartsWith, List.isPrefixOf, writeSegs, hnot]

/-- C5: an empty explicit line — the empty string itself, or a
zero-length line between two line breaks — wraps to exactly one empty
output line, and `write` advances the cursor by exactly one line height
for it, drawing one empty segment (spec-modelled Text Wrapper). -/
theorem blank_line_preserved :
    (∀ (SW : Str → ℤ) (mw : ℤ), simpleSplit SW mw [] = [[]]) ∧
    (∀ (SW : Str → ℤ) (mw : ℤ),
      simpleSplit SW mw ('a' :: '\n' :: '\n' :: ['b']) = [['a'], [], ['b']]) ∧
    (∀ (SW : Str → ℤ) (b : Bool) (y0 : ℤ) (pg : ℕ), 2 * cmU ≤ y0 - lineH →
      write SW b [] y0 pg = ⟨y0 - lineH, pg, [⟨pg, y0 - lineH, [], true⟩]⟩) := by
  exact ⟨fun SW mw => rfl, fun SW mw => rfl, fun SW b y0 pg h => write_empty SW b y0 pg h⟩

/-- C5 witness: the empty body drawn at a concrete cursor position far
from the bottom margin. -/
theorem blank_line_preserved_w :
    simpleSplit SW0 maxW [] = [[]] ∧
    write SW0 false [] (200 * uPt) 0 =
      ⟨200 * uPt - lineH, 0, [⟨0, 200 * uPt - lineH, [], true⟩]⟩ :=
  ⟨blank_line_preserved.1 SW0 maxW,
   blank_line_preserved.2.2 SW0 false (200 * uPt) 0 (by decide)⟩

-- ----------------------------  C6  ------------------------------------

/-- C6 counterexample: on an empty body drawn from 200 points,
`draw_block` returns neither the post-body cursor decremented by one
text line height (the claim's main clause) nor the bare title advance
plus spacing (the claim's empty-body clause); the inter-block spacing is
8 points, not a 14-point line height, and the empty body costs one extra
line. -/
theorem block_return_ce :
    (draw_block SW0 false "T".toList [] (200 * uPt) 0).y ≠
      (write SW0 false [] (200 * uPt - 12 * uPt) 0).y - lineH ∧
    (draw_block SW0 false "T".toList [] (200 * uPt) 0).y ≠
      200 * uPt - 12 * uPt - 8 * uPt := by
  constructor
  · decide
  · decide

/-- C6 (amended): `draw_block` returns the cursor reached after drawing
all lines decremented by a fixed 8-point inter-block spacing (not by a
text line height); an empty body still draws the title and additionally
one empty wrapped line, so away from the bottom margin it returns the
incoming cursor lowered by 12 + 14 + 8 = 34 points. -/
theorem block_return_amended :
    (∀ (SW : Str → ℤ) (b : Bool) (t body : Str) (y : ℤ) (pg : ℕ),
      (draw_block SW b t body y pg).y =
        (write SW b body (y - 12 * uPt) pg).y - 8 * uPt) ∧
    (∀ (SW : Str → ℤ) (b : Bool) (t : Str) (y : ℤ) (pg : ℕ),
      2 * cmU ≤ y - 26 * uPt →
      draw_block SW b t [] y pg =
        ⟨y - 34 * uPt, pg, [⟨pg, y, t, false⟩, ⟨pg, y - 26 * uPt, [], true⟩]⟩) := by
  constructor
  · intro SW b t body y pg; rfl
  · intro SW b t y pg h
    have e1 : y - 12 * uPt - lineH = y - 26 * uPt := by
      simp only [uPt, lineH]; omega
    have hw : write SW b [] (y - 12 * uPt) pg =
        ⟨y - 26 * uPt, pg, [⟨pg, y - 26 * uPt, [], true⟩]⟩ := by
      rw [write_empty SW b (y - 12 * uPt) pg (by rw [e1]; exact h), e1]
    have e2 : y - 26 * uPt - 8 * uPt = y - 34 * uPt := by
      simp only [uPt]; omega
    simp [draw_block, hw, e2]

/-- C6 witness: the amended statement at a concrete cursor position. -/
theorem block_return_amended_w :
    (draw_block SW0 false "T".toList "b".toList (200 * uPt) 0).y =
      (write SW0 false "b".toList (200 * uPt - 12 * uPt) 0).y - 8 * uPt ∧
    draw_block SW0 false "T".toList [] (200 * uPt) 0 =
      ⟨200 * uPt - 34 * uPt, 0,
       [⟨0, 200 * uPt, "T".toList, false⟩,
        ⟨0, 200 * uPt - 26 * uPt, [], true⟩]⟩ :=
  ⟨block_return_amended.1 SW0 false "T".toList "b".toList (200 * uPt) 0,
   block_return_amended.2 SW0 false "T".toList (200 * uPt) 0 (by decide)⟩

-- ----------------------------  C7  ------------------------------------

/-- C7 counterexample: the line `"\t* x"` is bullet-marked (its
whitespace-trimmed text starts with `*`), but the rewrite leaves the
`*` marker in place — `lstrip("*-• ")` does not pass the leading tab —
so the result is not the claimed glyph-plus-trimmed-content. -/
theorem bullet_rewrite_ce :
    bulletMarked "\t* x".toList = true ∧
    normBulletLine "\t* x".toList ≠ claimedBulletRewrite "\t* x".toList ∧
    normBulletLine "\t* x".toList = "• * x".toList := by
  refine ⟨by decide, by decide, by decide⟩

/-- C7 (amended): unmarked lines pass through unchanged; a marked line
becomes one bullet glyph followed by the line with its leading
characters drawn from `*`, `-`, `•`, and the ASCII space removed and the
remainder trimmed of surrounding whitespace; when the line's whitespace
consists of ASCII spaces only, that remainder indeed starts with neither
a bullet character nor whitespace, as the claim intends. -/
theorem bullet_rewrite_amended :
    (∀ ln : Str, bulletMarked ln = false → normBulletLine ln = ln) ∧
    (∀ ln : Str, bulletMarked ln = true →
      normBulletLine ln =
        '•' :: ' ' :: pyStrip (pyLstripSet ['*', '-', '•', ' '] ln)) ∧
    (∀ ln : Str, (∀ c ∈ ln, pyWsChar c = true → c = ' ') →
      ∀ c, (pyStrip (pyLstripSet ['*', '-', '•', ' '] ln)).head? = some c →
        (c = '*' ∨ c = '-' ∨ c = '•' ∨ pyWsChar c = true) → False) := by
  refine ⟨?_, ?_, ?_⟩
  · intro ln h; simp [normBulletLine, h]
  · intro ln h; simp [normBulletLine, h]
  · intro ln hws c hc hbad
    cases hm2 : pyLstripSet ['*', '-', '•', ' '] ln with
    | nil =>
      rw [hm2] at hc
      simp [pyStrip, pyLstripWs, pyRstripWs, List.dropWhile] at hc
    | cons c0 t =>
      have hc0set : (decide (c0 ∈ (['*', '-', '•', ' '] : List Char))) = false := by
        apply head_dropWhile_false (fun c => decide (c ∈ (['*', '-', '•', ' '] : List Char))) ln c0
        rw [show List.dropWhile (fun c => decide (c ∈ (['*', '-', '•', ' '] : List Char))) ln
              = pyLstripSet ['*', '-', '•', ' '] ln from rfl, hm2]
        rfl
      have hc0nset : c0 ∉ (['*', '-', '•', ' '] : List Char) := by
        simpa using hc0set
      have hmem : c0 ∈ ln := by
        apply mem_dropWhile (fun c => decide (c ∈ (['*', '-', '•', ' '] : List Char))) ln c0
        rw [show List.dropWhile (fun c => decide (c ∈ (['*', '-', '•', ' '] : List Char))) ln
              = pyLstripSet ['*', '-', '•', ' '] ln from rfl, hm2]
        exact List.mem_cons_self c0 t
      have hc0ws : pyWsChar c0 = false := by
        by_cases hw : pyWsChar c0 = true
        · exact absurd (by rw [hws c0 hmem hw]; simp : c0 ∈ (['*', '-', '•', ' '] : List Char)) hc0nset
        · exact Bool.eq_false_iff.mpr hw
      have hstrip : (pyStrip (c0 :: t)).head? = some c0 := by
        rw [pyStrip, show pyLstripWs (c0 :: t) = c0 :: t by
              simp [pyLstripWs, List.dropWhile_cons, hc0ws],
           pyRstripWs_cons c0 t hc0ws]
        rfl
      rw [hm2, hstrip] at hc
      cases hc
      rcases hbad with h | h | h | h
      · exact hc0nset (by simp [h])
      · exact hc0nset (by simp [h])
      · exact hc0nset (by simp [h])
      · rw [hc0ws] at h; cases h

/-- C7 witness: the amended statement at an unmarked line, a marked
line, and the head of a marked line's rewritten remainder. -/
theorem bullet_rewrite_amended_w :
    normBulletLine "x".toList = "x".toList ∧
    normBulletLine "* a".toList =
      '•' :: ' ' :: pyStrip (pyLstripSet ['*', '-', '•', ' '] "* a".toList) ∧
    (('a' = '*' ∨ 'a' = '-' ∨ 'a' = '•' ∨ pyWsChar 'a' = true) → False) :=
  ⟨bullet_rewrite_amended.1 _ (by decide),
   bullet_rewrite_amended.2.1 _ (by decide),
   bullet_rewrite_amended.2.2 "* a".toList (by decide) 'a' (by decide)⟩

-- ----------------------------  C8  ------------------------------------

/-- C8: every exception raised while fetching or formatting weather is
caught by `weather_md` and surfaces as the placeholder string prefixed
with the warning marker; nothing propagates (the embedding is total). -/
theorem weather_failure_placeholder :
    (∀ e : Str, weather_md (Except.error e) = failMarker ++ e) ∧
    (∀ (w : Weather) (e : Str), formatWeather w = Except.error e →
      weather_md (Except.ok w) = failMarker ++ e) := by
  constructor
  · intro e; rfl
  · intro w e h; simp [weather_md, h]

/-- C8 witness: a geocoding failure message and a malformed payload
(an `IndexError` inside the `try` block) both yield the placeholder. -/
theorem weather_failure_placeholder_w :
    weather_md (Except.error "City not found".toList) =
      failMarker ++ "City not found".toList ∧
    weather_md (Except.ok ⟨"L".toList, ["d".toList], [], [], [], []⟩) =
      failMarker ++ "list index out of range".toList :=
  ⟨weather_failure_placeholder.1 _,
   weather_failure_placeholder.2 ⟨"L".toList, ["d".toList], [], [], [], []⟩ _ rfl⟩

-- ----------------------------  C9  ------------------------------------

/-- C9: with an empty interests text, the Interests block of the render
trace is drawn with the placeholder body `—`: the third drawn event is
the Interests title and the fourth is a single `—` segment, for every
font metric and every remaining input. -/
theorem interests_placeholder :
    ∀ (SW : Str → ℤ) (city : Str) (days : ℕ) (itin weather ts : Str),
      (renderTrace SW city days [] itin weather ts).get? 2 =
        some ⟨0, topM - 30 * uPt, "Interests".toList, false⟩ ∧
      (renderTrace SW city days [] itin weather ts).get? 3 =
        some ⟨0, topM - 56 * uPt, emDash, true⟩ :=
  fun SW city days itin weather ts => ⟨rfl, by
    show (renderTrace SW city days [] itin weather ts).get? 3 = _
    have : (renderTrace SW city days [] itin weather ts).get? 3 =
        some ⟨0, topM - 30 * uPt - 12 * uPt - lineH, emDash, true⟩ := rfl
    rw [this]
    have e : topM - 30 * uPt - 12 * uPt - lineH = topM - 56 * uPt := by
      simp only [uPt, lineH]; omega
    rw [e]⟩

-- ----------------------------  C10  -----------------------------------

theorem lookup_eq_of_mem :
    ∀ (l : List (Int × Str)) (c : Int) (d : Str),
      (l.map Prod.fst).Nodup → (c, d) ∈ l → l.lookup c = some d := by
  intro l
  induction l with
  | nil => intro c d _ h; simp at h
  | cons p t ih =>
    intro c d hnd hm
    obtain ⟨k, v⟩ := p
    rw [List.map_cons, List.nodup_cons] at hnd
    rcases List.mem_cons.mp hm with h1 | h2
    · injection h1 with e1 e2
      subst e1; subst e2
      simp [List.lookup]
    · have hck : (c == k) = false := by
        apply beq_eq_false_iff_ne.mpr
        rintro rfl
        exact hnd.1 (List.mem_map.mpr ⟨(c, d), h2, rfl⟩)
      simp only [List.lookup, hck]
      exact ih c d hnd.2 h2

theorem lookup_none_of_not_mem :
    ∀ (l : List (Int × Str)) (c : Int),
      c ∉ l.map Prod.fst → l.lookup c = none := by
  intro l
  induction l with
  | nil => intro c _; rfl
  | cons p t ih =>
    intro c h
    obtain ⟨k, v⟩ := p
    rw [List.map_cons] at h
    have hck : (c == k) = false := by
      apply beq_eq_false_iff_ne.mpr
      rintro rfl
      exact h (List.mem_cons_self _ _)
    simp only [List.lookup, hck]
    exact ih c (fun hc => h (List.mem_cons_of_mem _ hc))

/-- C10: the code-to-description lookup is total — every code present in
the `WCODE` table maps to its description, and every other integer code
maps to `"N/A"`; no code can fail the lookup. -/
theorem wcode_total_lookup :
    (∀ (c : Int) (d : Str), (c, d) ∈ WCODE → wcodeGet c = d) ∧
    (∀ c : Int, c ∉ WCODE.map Prod.fst → wcodeGet c = "N/A".toList) := by
  constructor
  · intro c d h
    unfold wcodeGet
    rw [lookup_eq_of_mem WCODE c d (by decide) h]
    rfl
  · intro c h
    unfold wcodeGet
    rw [lookup_none_of_not_mem WCODE c h]
    rfl

/-- C10 witness: a code in the table and a code outside it. -/
theorem wcode_total_lookup_w :
    wcodeGet 45 = "Fog".toList ∧ wcodeGet 7 = "N/A".toList :=
  ⟨wcode_total_lookup.1 45 "Fog".toList (by decide),
   wcode_total_lookup.2 7 (by decide)⟩

-- ----------------------------  C1  ------------------------------------

theorem two_cm_le_topM : 2 * cmU ≤ topM := by decide

theorem writeSegs_checked_low :
    ∀ (segs : List Str) (y0 : ℤ) (pg : ℕ),
      ∀ e ∈ (writeSegs segs y0 pg).evs, 2 * cmU ≤ e.y := by
  intro segs
  induction segs with
  | nil => intro y0 pg e he; simp [writeSegs] at he
  | cons s rest ih =>
    intro y0 pg e he
    by_cases h : y0 - lineH < 2 * cmU
    · simp only [writeSegs, if_pos h] at he
      rcases List.mem_cons.mp he with h1 | h2
      · subst h1; exact two_cm_le_topM
      · exact ih topM (pg + 1) e h2
    · simp only [writeSegs, if_neg h] at he
      rcases List.mem_cons.mp he with h1 | h2
      · subst h1; exact not_lt.mp h
      · exact ih (y0 - lineH) pg e h2

theorem writeSegs_chain :
    ∀ (segs : List Str) (y0 : ℤ) (pg : ℕ),
      List.Chain' evStep (writeSegs segs y0 pg).evs
      ∧ (∀ e ∈ (writeSegs segs y0 pg).evs.head?, stepOk pg y0 e)
      ∧ (((writeSegs segs y0 pg).evs = [] ∧ (writeSegs segs y0 pg).y = y0
            ∧ (writeSegs segs y0 pg).pg = pg)
         ∨ (∃ e, (writeSegs segs y0 pg).evs.getLast? = some e
              ∧ e.page = (writeSegs segs y0 pg).pg
              ∧ e.y = (writeSegs segs y0 pg).y)) := by
  intro segs
  induction segs with
  | nil =>
    intro y0 pg
    refine ⟨List.chain'_nil, ?_, Or.inl ⟨rfl, rfl, rfl⟩⟩
    intro e he
    simp [writeSegs] at he
  | cons s rest ih =>
    intro y0 pg
    by_cases h : y0 - lineH < 2 * cmU
    · obtain ⟨ihc, ihh, ihl⟩ := ih topM (pg + 1)
      have hres : writeSegs (s :: rest) y0 pg =
          ⟨(writeSegs rest topM (pg + 1)).y, (writeSegs rest topM (pg + 1)).pg,
           ⟨pg + 1, topM, s, true⟩ :: (writeSegs rest topM (pg + 1)).evs⟩ := by
        simp only [writeSegs, if_pos h]
      rw [hres]
      refine ⟨?_, ?_, ?_⟩
      · rw [List.chain'_cons']
        refine ⟨?_, ihc⟩
        intro b hb
        rcases ihh b hb with ⟨hp, hy⟩ | ⟨hp, hy⟩
        · exact Or.inl ⟨hp, hy⟩
        · exact Or.inr ⟨hp, hy⟩
      · intro e he
        rw [List.head?_cons, Option.mem_some_iff] at he
        subst he
        exact Or.inr ⟨rfl, rfl⟩
      · rcases ihl with ⟨hnil, hy, hpg⟩ | ⟨e, hl, hp, hy⟩
        · refine Or.inr ⟨⟨pg + 1, topM, s, true⟩, ?_, ?_, ?_⟩
          · rw [hnil]; rfl
          · simp [hpg]
          · simp [hy]
        · refine Or.inr ⟨e, ?_, hp, hy⟩
          rcases hev : (writeSegs rest topM (pg + 1)).evs with _ | ⟨e2, t2⟩
          · rw [hev] at hl; simp at hl
          · rw [hev] at hl; simpa using hl
    · obtain ⟨ihc, ihh, ihl⟩ := ih (y0 - lineH) pg
      have hres : writeSegs (s :: rest) y0 pg =
          ⟨(writeSegs rest (y0 - lineH) pg).y, (writeSegs rest (y0 - lineH) pg).pg,
           ⟨pg, y0 - lineH, s, true⟩ :: (writeSegs rest (y0 - lineH) pg).evs⟩ := by
        simp only [writeSegs, if_neg h]
      rw [hres]
      refine ⟨?_, ?_, ?_⟩
      · rw [List.chain'_cons']
        refine ⟨?_, ihc⟩
        intro b hb
        rcases ihh b hb with ⟨hp, hy⟩ | ⟨hp, hy⟩
        · exact Or.inl ⟨hp, hy⟩
        · exact Or.inr ⟨hp, hy⟩
      · intro e he
        rw [List.head?_cons, Option.mem_some_iff] at he
        subst he
        exact Or.inl ⟨rfl, sub_le_self y0 (by decide)⟩
      · rcases ihl with ⟨hnil, hy, hpg⟩ | ⟨e, hl, hp, hy⟩
        · refine Or.inr ⟨⟨pg, y0 - lineH, s, true⟩, ?_, ?_, ?_⟩
          · rw [hnil]; rfl
          · simp [hpg]
          · simp [hy]
        · refine Or.inr ⟨e, ?_, hp, hy⟩
          rcases hev : (writeSegs rest (y0 - lineH) pg).evs with _ | ⟨e2, t2⟩
          · rw [hev] at hl; simp at hl
          · rw [hev] at hl; simpa using hl

theorem greedyFill_ne_nil (SW : Str → ℤ) (mw : ℤ) :
    ∀ (ts : List Str) (cur : Str), greedyFill SW mw cur ts ≠ [] := by
  intro ts
  induction ts with
  | nil => intro cur; simp [greedyFill]
  | cons t ts ih =>
    intro cur
    rw [greedyFill]
    by_cases h : SW (cur ++ ' ' :: t) ≤ mw
    · simp only [if_pos h]; exact ih _
    · simp only [if_neg h]; simp

theorem wrapLine_ne_nil (SW : Str → ℤ) (mw : ℤ) (ln : Str) :
    wrapLine SW mw ln ≠ [] := by
  rw [wrapLine]
  rcases pySplitWs ln with _ | ⟨t, ts⟩
  · simp
  · exact greedyFill_ne_nil SW mw ts t

theorem pySplitNl_ne_nil : ∀ s : Str, pySplitNl s ≠ [] := by
  intro s
  cases s with
  | nil => simp [pySplitNl]
  | cons c t =>
    rw [pySplitNl]
    by_cases h : c = '\n'
    · simp [h]
    · simp only [if_neg h]
      cases pySplitNl t <;> simp

theorem simpleSplit_ne_nil (SW : Str → ℤ) (mw : ℤ) (txt : Str) :
    simpleSplit SW mw txt ≠ [] := by
  rcases hp : pySplitNl txt with _ | ⟨l, ls⟩
  · exact absurd hp (pySplitNl_ne_nil txt)
  · rw [simpleSplit, hp]
    simp only [List.flatMap_cons]
    intro hcontra
    rcases List.append_eq_nil.mp hcontra with ⟨h1, _⟩
    exact wrapLine_ne_nil SW mw l h1

theorem segsOf_ne_nil (SW : Str → ℤ) (b : Bool) (txt : Str) :
    segsOf SW b txt ≠ [] := by
  rcases hp : pySplitNl txt with _ | ⟨l, ls⟩
  · exact absurd hp (pySplitNl_ne_nil txt)
  · rw [segsOf, hp]
    simp only [List.flatMap_cons]
    intro hcontra
    rcases List.append_eq_nil.mp hcontra with ⟨h1, _⟩
    exact simpleSplit_ne_nil SW maxW _ h1

theorem writeSegs_evs_ne_nil :
    ∀ (segs : List Str) (y0 : ℤ) (pg : ℕ), segs ≠ [] →
      (writeSegs segs y0 pg).evs ≠ [] := by
  intro segs y0 pg h
  cases segs with
  | nil => exact absurd rfl h
  | cons s rest =>
    by_cases hc : y0 - lineH < 2 * cmU <;> simp [writeSegs, hc]

theorem draw_block_bundle (SW : Str → ℤ) (b : Bool) (t body : Str) (y : ℤ) (pg : ℕ) :
    List.Chain' evStep (draw_block SW b t body y pg).evs
    ∧ (draw_block SW b t body y pg).evs.head? = some ⟨pg, y, t, false⟩
    ∧ (∃ e, (draw_block SW b t body y pg).evs.getLast? = some e
         ∧ e.page = (draw_block SW b t body y pg).pg
         ∧ e.y = (draw_block SW b t body y pg).y + 8 * uPt)
    ∧ (∀ e ∈ (draw_block SW b t body y pg).evs, e.checked = true → 2 * cmU ≤ e.y) := by
  obtain ⟨hc, hh, hl⟩ := writeSegs_chain (segsOf SW b body) (y - 12 * uPt) pg
  have hne : (writeSegs (segsOf SW b body) (y - 12 * uPt) pg).evs ≠ [] :=
    writeSegs_evs_ne_nil _ _ _ (segsOf_ne_nil SW b body)
  have hdb : draw_block SW b t body y pg =
      ⟨(writeSegs (segsOf SW b body) (y - 12 * uPt) pg).y - 8 * uPt,
       (writeSegs (segsOf SW b body) (y - 12 * uPt) pg).pg,
       ⟨pg, y, t, false⟩ :: (writeSegs (segsOf SW b body) (y - 12 * uPt) pg).evs⟩ := rfl
  rw [hdb]
  refine ⟨?_, rfl, ?_, ?_⟩
  · rw [List.chain'_cons']
    refine ⟨?_, hc⟩
    intro e he
    rcases hh e he with ⟨hp, hy⟩ | ⟨hp, hy⟩
    · exact Or.inl ⟨hp, le_trans hy (sub_le_self y (by decide))⟩
    · exact Or.inr ⟨hp, hy⟩
  · rcases hl with ⟨hnil, _, _⟩ | ⟨e, hlast, hp, hy⟩
    · exact absurd hnil hne
    · refine ⟨e, ?_, by simpa using hp, ?_⟩
      · rcases hev : (writeSegs (segsOf SW b body) (y - 12 * uPt) pg).evs with _ | ⟨e2, t2⟩
        · exact absurd hev hne
        · rw [hev] at hlast; simpa using hlast
      · simp only []
        rw [hy]; ring
  · intro e he hck
    rcases List.mem_cons.mp he with h1 | h2
    · subst h1; simp at hck
    · exact writeSegs_checked_low _ _ _ e h2

/-- C1 counterexample: with 49 one-character interests lines, the
cursor returned by the Interests block is `6248` units (about 49.2
points), below the 2 cm bottom margin (`7200` units), and the Weather
block title — event 52 of the trace — is then drawn there without any
page break or reset: a text segment drawn below the bottom margin. -/
theorem pagination_cursor_ce :
    (renderTrace SW0 "c".toList 1 i49 "x".toList "W".toList "t".toList).get? 52 =
      some ⟨0, 6248, "Weather".toList, false⟩ ∧
    (6248 : ℤ) < 2 * cmU := by
  exact ⟨by decide, by decide⟩

/-- C1 (amended): body-text segments — the draws of the page-break
checked loop of `write` — are never drawn below the 2 cm bottom margin:
each one triggers at most one page break with a reset to `top` before
being drawn, and between consecutive draws the cursor is monotonically
non-increasing within a page while a page change is a single page break
resetting to `top`.  Block titles, however, are drawn at the incoming
cursor without any page-break check and can land below the bottom
margin. -/
theorem pagination_cursor_amended :
    ∀ (SW : Str → ℤ) (city : Str) (days : ℕ) (interests itin weather ts : Str),
      (∀ e ∈ renderTrace SW city days interests itin weather ts,
        e.checked = true → 2 * cmU ≤ e.y)
      ∧ List.Chain' evStep (renderTrace SW city days interests itin weather ts) := by
  intro SW city days interests itin weather ts
  obtain ⟨c1, h1, ⟨l1, hl1, hl1p, hl1y⟩, b1⟩ :=
    draw_block_bundle SW false "Interests".toList (pyOr interests emDash)
      (topM - 30 * uPt) 0
  set r1 := draw_block SW false "Interests".toList (pyOr interests emDash)
    (topM - 30 * uPt) 0 with hr1
  obtain ⟨c2, h2, ⟨l2, hl2, hl2p, hl2y⟩, b2⟩ :=
    draw_block_bundle SW false "Weather".toList (stripWeather weather) r1.y r1.pg
  set r2 := draw_block SW false "Weather".toList (stripWeather weather) r1.y r1.pg
    with hr2
  obtain ⟨c3, h3, ⟨l3, hl3, hl3p, hl3y⟩, b3⟩ :=
    draw_block_bundle SW true "Itinerary".toList (normalizeMd itin) r2.y r2.pg
  set r3 := draw_block SW true "Itinerary".toList (normalizeMd itin) r2.y r2.pg
    with hr3
  have htr : renderTrace SW city days interests itin weather ts =
      ⟨0, topM, pyTitleCase city ++ (" — ".toList ++ ((Nat.repr days).toList ++
        "-Day Itinerary".toList)), false⟩ ::
      ⟨0, topM - 18 * uPt, "Generated: ".toList ++ ts, false⟩ ::
      (r1.evs ++ (r2.evs ++ r3.evs)) := rfl
  rw [htr]
  constructor
  · intro e he hck
    rcases List.mem_cons.mp he with hh | he2
    · subst hh; simp at hck
    rcases List.mem_cons.mp he2 with hh | he3
    · subst hh; simp at hck
    rcases List.mem_append.mp he3 with hb | hb23
    · exact b1 e hb hck
    rcases List.mem_append.mp hb23 with hb | hb
    · exact b2 e hb hck
    · exact b3 e hb hck
  · rw [List.chain'_cons']
    constructor
    · intro e he
      rw [List.head?_cons, Option.mem_some_iff] at he
      subst he
      refine Or.inl ⟨rfl, ?_⟩
      show topM - 18 * uPt ≤ topM
      decide
    rw [List.chain'_cons']
    constructor
    · intro e he
      rw [List.head?_append, h1] at he
      simp only [Option.or, Option.mem_some_iff] at he
      subst he
      refine Or.inl ⟨rfl, ?_⟩
      show topM - 30 * uPt ≤ topM - 18 * uPt
      decide
    refine List.Chain'.append c1 (List.Chain'.append c2 c3 ?_) ?_
    · intro x hx e he
      rw [hl2, Option.mem_some_iff] at hx
      subst hx
      rw [h3, Option.mem_some_iff] at he
      subst he
      refine Or.inl ⟨hl2p.symm, ?_⟩
      rw [hl2y]
      exact le_add_of_nonneg_right (by decide)
    · intro x hx e he
      rw [hl1, Option.mem_some_iff] at hx
      subst hx
      rw [List.head?_append, h2] at he
      simp only [Option.or, Option.mem_some_iff] at he
      subst he
      refine Or.inl ⟨hl1p.symm, ?_⟩
      rw [hl1y]
      exact le_add_of_nonneg_right (by decide)

/-- C1 witness: the amended bound applied to the `—` body segment of an
empty-interests render (the fourth drawn event). -/
theorem pagination_cursor_amended_w :
    2 * cmU ≤ (⟨0, topM - 56 * uPt, emDash, true⟩ : Ev).y :=
  (pagination_cursor_amended SW0 "c".toList 1 [] "x".toList "W".toList "t".toList).1
    ⟨0, topM - 56 * uPt, emDash, true⟩ (by decide) rfl
